import Mathlib

set_option maxHeartbeats 1000000
set_option maxRecDepth 20000

/-!
Shallow embedding of the SVG normalization core of the Webflow SVG extension
(source file `src/unnamed/part_001`).

Modelling conventions:

* JavaScript numbers are modelled as exact rationals (`ℚ`).  `parseFloat` of a
  decimal literal yields the literal's exact value; its `NaN` and `Infinity`
  outcomes are both modelled as `Option.none`, which is faithful because every
  `parseFloat` result in the source is immediately filtered through
  `Number.isFinite`, where the two non-finite outcomes are indistinguishable.
  Double rounding/overflow of extreme literals is outside the model.
  Arithmetic on `ℚ` is expressed through `mkRat`/`Rat.divInt` based helpers
  (`qAdd`, `qSub`, ...) so that every definition evaluates inside the kernel.
* DOM documents are modelled as a tree of elements carrying an ordered
  attribute list; `DOMParser` (which never throws, signalling failure through a
  `parsererror` document) is modelled by a small well-formed-XML reader that
  returns `none` exactly where the browser parser would produce a parse error.
  The source's try/catch blocks therefore become total functions whose failure
  branch is the `none` case of the parse.
* `String(x)` on a finite number is modelled by printing an integral value
  without a decimal point and a non-integral value by its terminating decimal
  expansion (every value produced here from decimal literals terminates).
-/

/-- Kernel-reducible rational addition. -/
def qAdd (a b : ℚ) : ℚ := mkRat (a.num * b.den + b.num * a.den) (a.den * b.den)

/-- Kernel-reducible rational subtraction. -/
def qSub (a b : ℚ) : ℚ := mkRat (a.num * b.den - b.num * a.den) (a.den * b.den)

/-- Kernel-reducible rational multiplication. -/
def qMul (a b : ℚ) : ℚ := mkRat (a.num * b.num) (a.den * b.den)

/-- Kernel-reducible rational division. -/
def qDiv (a b : ℚ) : ℚ := Rat.divInt (a.num * b.den) (a.den * b.num)

/-- Kernel-reducible rational negation. -/
def qNeg (a : ℚ) : ℚ := mkRat (-a.num) a.den

/-- Models JavaScript `Math.min` on two (finite) numbers. -/
def qMin (a b : ℚ) : ℚ := if a ≤ b then a else b

/-- Powers of ten, kept kernel-reducible. -/
def pow10 : ℕ → ℕ
  | 0 => 1
  | k + 1 => 10 * pow10 k

/-- Whitespace recognised by JavaScript `trim`, `parseFloat` and the `[\s,]+`
separator regex (ASCII subset, which is all this program ever meets). -/
def isWS (c : Char) : Bool :=
  c = ' ' || c = '\t' || c = '\n' || c = '\r' || c = '\x0b' || c = '\x0c'

/-- Models `String.prototype.trim`. -/
def jsTrim (s : String) : String :=
  String.mk (((s.data.dropWhile isWS).reverse.dropWhile isWS).reverse)

/-- Numeric value of a decimal digit character. -/
def digitVal (c : Char) : ℕ := c.toNat - '0'.toNat

/-- Value of a list of decimal digit characters. -/
def digitsToNat (ds : List Char) : ℕ := ds.foldl (fun a c => a * 10 + digitVal c) 0

/-- Models JavaScript `parseFloat`: the exact rational value of the longest
decimal-literal prefix of the string (after leading whitespace), or `none`
when there is no such prefix (`NaN`) or it denotes `Infinity`. -/
def jsParseFloat (s : String) : Option ℚ :=
  let cs := s.data.dropWhile isWS
  let signAndRest : Bool × List Char :=
    match cs with
    | '+' :: r => (false, r)
    | '-' :: r => (true, r)
    | _ => (false, cs)
  let neg := signAndRest.1
  let cs1 := signAndRest.2
  if cs1.take 8 = "Infinity".data then none
  else
    let ip := cs1.takeWhile Char.isDigit
    let r1 := cs1.dropWhile Char.isDigit
    let fpAndRest : List Char × List Char :=
      match r1 with
      | '.' :: r => (r.takeWhile Char.isDigit, r.dropWhile Char.isDigit)
      | _ => ([], r1)
    let fp := fpAndRest.1
    let r2 := fpAndRest.2
    if ip = [] ∧ fp = [] then none
    else
      let mant : ℚ :=
        mkRat (digitsToNat ip * pow10 fp.length + digitsToNat fp) (pow10 fp.length)
      let exp : Option ℤ :=
        match r2 with
        | 'e' :: r | 'E' :: r =>
          let esignAndRest : Bool × List Char :=
            match r with
            | '+' :: rr => (false, rr)
            | '-' :: rr => (true, rr)
            | _ => (false, r)
          let ed := esignAndRest.2.takeWhile Char.isDigit
          if ed = [] then none
          else some (if esignAndRest.1 then -(digitsToNat ed : ℤ) else (digitsToNat ed : ℤ))
        | _ => none
      let scaled : ℚ :=
        match exp with
        | none => mant
        | some e =>
          if 0 ≤ e then qMul mant (mkRat (pow10 e.toNat) 1)
          else qDiv mant (mkRat (pow10 (-e).toNat) 1)
      some (if neg then qNeg scaled else scaled)

/-- Decimal digits of the fractional part `r / d` (`r < d`), produced by long
division until the remainder vanishes; the fuel bounds the expansion (the
values this program prints all terminate well inside it). -/
def fracDigits : ℕ → ℕ → ℕ → String
  | 0, _, _ => ""
  | fuel + 1, r, d =>
    if r = 0 then ""
    else toString (r * 10 / d) ++ fracDigits fuel (r * 10 % d) d

/-- Models JavaScript `String(x)` for the finite numbers this program prints:
integers without a decimal point, other values by their terminating decimal
expansion. -/
def jsNumToString (q : ℚ) : String :=
  let n := q.num.natAbs
  let d := q.den
  let core :=
    if n % d = 0 then toString (n / d)
    else toString (n / d) ++ "." ++ fracDigits 1200 (n % d) d
  if q < 0 then "-" ++ core else core

/-- Models the source's `num` helper (`src/unnamed/part_001`, lines 99-102) at
its only used fallback `fb = 0`: `v ? parseFloat(v) : NaN`, then
`Number.isFinite(n) ? n : fb`.  A missing attribute (`null`), an empty string
(falsy) and a non-finite parse all fall back to `0`. -/
def num (v : Option String) : ℚ :=
  match v with
  | none => 0
  | some s => if s = "" then 0 else (jsParseFloat s).getD 0

example : num (some "10") = 10 := by decide
example : num (some "2.5") = mkRat 5 2 := by decide
example : num (some "-3e2") = -300 := by decide
example : num (some "abc") = 0 := by decide
example : num (some "") = 0 := by decide
example : num none = 0 := by decide
example : num (some "Infinity") = 0 := by decide
example : num (some ".5e1") = 5 := by decide
example : jsNumToString 10 = "10" := by decide
example : jsNumToString (mkRat 5 2) = "2.5" := by decide
example : jsNumToString (-3 : ℚ) = "-3" := by decide
example : jsNumToString 0 = "0" := by decide
example : jsTrim "  M 0 0  " = "M 0 0" := by decide

/-- A DOM element: tag name, attributes in document order, child elements.
Text nodes are irrelevant to every function modelled here (they are neither
converted, styled nor serialized back by the code under study) and are
dropped by the reader. -/
inductive XElem : Type where
  | mk : String → List (String × String) → List XElem → XElem

mutual
/-- Structural boolean equality on elements. -/
def beqXElem : XElem → XElem → Bool
  | .mk t a c, .mk t' a' c' => t == t' && a == a' && beqXList c c'
/-- Structural boolean equality on lists of elements. -/
def beqXList : List XElem → List XElem → Bool
  | [], [] => true
  | x :: xs, y :: ys => beqXElem x y && beqXList xs ys
  | _, _ => false
end

mutual
theorem beqXElem_iff : ∀ a b : XElem, beqXElem a b = true ↔ a = b
  | .mk t a c, .mk t' a' c' => by
    simp [beqXElem, beqXList_iff c c', XElem.mk.injEq, and_assoc]
theorem beqXList_iff : ∀ l m : List XElem, beqXList l m = true ↔ l = m
  | [], [] => by simp [beqXList]
  | [], _ :: _ => by simp [beqXList]
  | _ :: _, [] => by simp [beqXList]
  | x :: xs, y :: ys => by simp [beqXList, beqXElem_iff x y, beqXList_iff xs ys]
end

instance : DecidableEq XElem := fun a b => decidable_of_iff _ (beqXElem_iff a b)

/-- Tag name of an element. -/
def XElem.tag : XElem → String
  | .mk t _ _ => t

/-- Attribute list of an element. -/
def XElem.attrs : XElem → List (String × String)
  | .mk _ a _ => a

/-- Child elements of an element. -/
def XElem.children : XElem → List XElem
  | .mk _ _ c => c

/-- First value bound to an attribute name in an attribute list
(`Element.getAttribute` returns `null`, i.e. `none`, when absent). -/
def getAttrL : List (String × String) → String → Option String
  | [], _ => none
  | (k, v) :: rest, n => if k = n then some v else getAttrL rest n

/-- Models `Element.getAttribute`. -/
def XElem.getAttribute (e : XElem) (n : String) : Option String :=
  getAttrL e.attrs n

/-- Models `Element.setAttribute` on an attribute list: replaces the value in
place (keeping the attribute's position) when the name is already present,
otherwise appends the pair. -/
def setAttrL : List (String × String) → String → String → List (String × String)
  | [], n, v => [(n, v)]
  | (k, w) :: rest, n, v =>
    if k = n then (n, v) :: rest else (k, w) :: setAttrL rest n v

/-- Models `Element.removeAttribute` on an attribute list. -/
def removeAttrL (l : List (String × String)) (n : String) : List (String × String) :=
  l.filter (fun p => ¬ p.1 = n)

mutual
/-- All proper descendant elements of an element in document order; models
`element.querySelectorAll("*")`. -/
def descendants : XElem → List XElem
  | .mk _ _ cs => descendantsList cs
/-- Concatenation of each listed element together with its descendants. -/
def descendantsList : List XElem → List XElem
  | [] => []
  | c :: cs => c :: (descendants c ++ descendantsList cs)
end

mutual
/-- First element with the given tag name, in document order, the element
itself included; models `querySelector` with a tag-name selector (which on an
XML document matches case-sensitively anywhere in the tree, root included). -/
def findFirst (t : String) : XElem → Option XElem
  | .mk tg a cs => if tg = t then some (.mk tg a cs) else findFirstList t cs
/-- First match of `findFirst` over a list of elements. -/
def findFirstList (t : String) : List XElem → Option XElem
  | [] => none
  | c :: cs =>
    match findFirst t c with
    | some r => some r
    | none => findFirstList t cs
end

/-- Name characters accepted by the XML reader (ASCII approximation of XML
name syntax, ample for SVG vocabularies). -/
def isNameChar (c : Char) : Bool :=
  c.isAlphanum || c = '_' || c = ':' || c = '-' || c = '.'

/-- First character of an XML name. -/
def isNameStart (c : Char) : Bool := c.isAlpha || c = '_' || c = ':'

/-- Reads an XML name; fails when the first character is not a name start. -/
def readName : List Char → Option (String × List Char)
  | [] => none
  | c :: rest =>
    if isNameStart c then
      some (String.mk (c :: rest.takeWhile isNameChar), rest.dropWhile isNameChar)
    else none

/-- Reads one quoted attribute value. -/
def readAttrVal : List Char → Option (String × List Char)
  | [] => none
  | q :: rest =>
    if q = '"' || q = '\'' then
      match rest.dropWhile (fun c => ¬ c = q) with
      | _ :: r2 => some (String.mk (rest.takeWhile (fun c => ¬ c = q)), r2)
      | [] => none
    else none

/-- Reads a (possibly empty) run of `name="value"` attributes. -/
def readAttrs : ℕ → List Char → Option (List (String × String) × List Char)
  | 0, _ => none
  | fuel + 1, cs =>
    let cs1 := cs.dropWhile isWS
    match readName cs1 with
    | none => some ([], cs1)
    | some (nm, r1) =>
      match r1.dropWhile isWS with
      | '=' :: r2 =>
        match readAttrVal (r2.dropWhile isWS) with
        | some (v, r3) =>
          match readAttrs fuel r3 with
          | some (as, r4) => some ((nm, v) :: as, r4)
          | none => none
        | none => none
      | _ => none

mutual
/-- Reads one element (`<name attrs/>` or `<name attrs> content </name>`). -/
def readElem : ℕ → List Char → Option (XElem × List Char)
  | 0, _ => none
  | fuel + 1, cs =>
    match cs with
    | '<' :: r1 =>
      match readName r1 with
      | some (nm, r2) =>
        match readAttrs (fuel + 1) r2 with
        | some (as, r3) =>
          match r3.dropWhile isWS with
          | '/' :: '>' :: r4 => some (.mk nm as [], r4)
          | '>' :: r4 =>
            match readContent fuel r4 with
            | some (kids, r5) =>
              match r5 with
              | '<' :: '/' :: r6 =>
                match readName r6 with
                | some (nm2, r7) =>
                  if nm2 = nm then
                    match r7.dropWhile isWS with
                    | '>' :: r8 => some (.mk nm as kids, r8)
                    | _ => none
                  else none
                | none => none
              | _ => none
            | none => none
          | _ => none
        | none => none
      | none => none
    | _ => none
/-- Reads element content: child elements separated by (skipped) text, up to
the closing tag of the parent. -/
def readContent : ℕ → List Char → Option (List XElem × List Char)
  | 0, _ => none
  | fuel + 1, cs =>
    match cs.dropWhile (fun c => ¬ c = '<') with
    | '<' :: '/' :: r => some ([], '<' :: '/' :: r)
    | '<' :: r =>
      match readElem fuel ('<' :: r) with
      | some (e, r2) =>
        match readContent fuel r2 with
        | some (es, r3) => some (e :: es, r3)
        | none => none
      | none => none
    | _ => none
end

/-- Models `DOMParser.parseFromString(..., "image/svg+xml")` on the XML subset
this program meets: returns the root element of a well-formed document, and
`none` where the browser parser would produce a `parsererror` document (the
code under study checks for that node or for a missing root and treats both
as failure, so the two signals need not be distinguished). -/
def xmlParse (s : String) : Option XElem :=
  match readElem (s.length + 1) (s.data.dropWhile isWS) with
  | some (e, rest) => if rest.dropWhile isWS = [] then some e else none
  | none => none

/-- Escapes an attribute value the way `XMLSerializer` does. -/
def escAttrVal (s : String) : String :=
  String.mk (s.data.flatMap fun c =>
    if c = '&' then "&amp;".data
    else if c = '<' then "&lt;".data
    else if c = '>' then "&gt;".data
    else if c = '"' then "&quot;".data
    else [c])

/-- Serialized form of an attribute list. -/
def serializeAttrs : List (String × String) → String
  | [] => ""
  | (n, v) :: rest => " " ++ n ++ "=\"" ++ escAttrVal v ++ "\"" ++ serializeAttrs rest

mutual
/-- Models `XMLSerializer.serializeToString` on an element tree: attributes in
stored order, childless elements self-closed. -/
def serializeElem : XElem → String
  | .mk t as cs =>
    match cs with
    | [] => "<" ++ t ++ serializeAttrs as ++ "/>"
    | c :: cs' =>
      "<" ++ t ++ serializeAttrs as ++ ">" ++ serializeList (c :: cs') ++ "</" ++ t ++ ">"
/-- Serialized form of a list of sibling elements. -/
def serializeList : List XElem → String
  | [] => ""
  | c :: cs => serializeElem c ++ serializeList cs
end

example : xmlParse "<svg></svg>" = some (.mk "svg" [] []) := by decide
example : xmlParse "<notsvg/>" = some (.mk "notsvg" [] []) := by decide
example : xmlParse "not xml at all" = none := by decide
example :
    xmlParse "<svg viewBox=\"0 0 24 24\"><g><rect width=\"10\"/></g></svg>" =
      some (.mk "svg" [("viewBox", "0 0 24 24")]
        [.mk "g" [] [.mk "rect" [("width", "10")] []]]) := by decide
example :
    descendants (.mk "svg" [] [.mk "g" [] [.mk "rect" [("width", "10")] []]]) =
      [.mk "g" [] [.mk "rect" [("width", "10")] []], .mk "rect" [("width", "10")] []] := by
  decide
example :
    serializeElem (.mk "svg" [("viewBox", "0 0 24 24")] [.mk "path" [("d", "M 0 0")] []]) =
      "<svg viewBox=\"0 0 24 24\"><path d=\"M 0 0\"/></svg>" := by decide
example : findFirst "svg" (.mk "a" [] [.mk "svg" [] []]) = some (.mk "svg" [] []) := by decide

/-- JavaScript `a || b` on numbers (used as `rx || ry || 0`): keeps `a` unless
it is falsy, i.e. zero (`NaN` cannot reach this spot, `num` already replaced
it by `0`). -/
def jsOrQ (a b : ℚ) : ℚ := if a = 0 then b else a

/-- Abbreviation used by every converter: formatted numeric attribute. -/
def fmtN (q : ℚ) : String := jsNumToString q

/-- Models `rectToPath` (`src/unnamed/part_001`, lines 105-130).  The source
builds the rounded branch as an array joined with single spaces; the join is
inlined into the concatenation here. -/
def rectToPath (el : XElem) : Option String :=
  let x := num (el.getAttribute "x")
  let y := num (el.getAttribute "y")
  let w := num (el.getAttribute "width")
  let h := num (el.getAttribute "height")
  if w ≤ 0 ∨ h ≤ 0 then none
  else
    let rx := num (el.getAttribute "rx")
    let ry := num (el.getAttribute "ry")
    if 0 < rx ∨ 0 < ry then
      let rx2 := qMin (jsOrQ rx (jsOrQ ry 0)) (qDiv w 2)
      let ry2 := qMin (jsOrQ ry (jsOrQ rx 0)) (qDiv h 2)
      some ("M " ++ fmtN (qAdd x rx2) ++ " " ++ fmtN y ++
        " H " ++ fmtN (qSub (qAdd x w) rx2) ++
        " A " ++ fmtN rx2 ++ " " ++ fmtN ry2 ++ " 0 0 1 " ++ fmtN (qAdd x w) ++ " " ++
          fmtN (qAdd y ry2) ++
        " V " ++ fmtN (qSub (qAdd y h) ry2) ++
        " A " ++ fmtN rx2 ++ " " ++ fmtN ry2 ++ " 0 0 1 " ++ fmtN (qSub (qAdd x w) rx2) ++ " " ++
          fmtN (qAdd y h) ++
        " H " ++ fmtN (qAdd x rx2) ++
        " A " ++ fmtN rx2 ++ " " ++ fmtN ry2 ++ " 0 0 1 " ++ fmtN x ++ " " ++
          fmtN (qSub (qAdd y h) ry2) ++
        " V " ++ fmtN (qAdd y ry2) ++
        " A " ++ fmtN rx2 ++ " " ++ fmtN ry2 ++ " 0 0 1 " ++ fmtN (qAdd x rx2) ++ " " ++
          fmtN y ++
        " Z")
    else
      some ("M " ++ fmtN x ++ " " ++ fmtN y ++ " H " ++ fmtN (qAdd x w) ++ " V " ++
        fmtN (qAdd y h) ++ " H " ++ fmtN x ++ " Z")

/-- Models `circleToPath` (`src/unnamed/part_001`, lines 131-142): two
half-circle arcs starting at `(cx - r, cy)`, closed. -/
def circleToPath (el : XElem) : Option String :=
  let cx := num (el.getAttribute "cx")
  let cy := num (el.getAttribute "cy")
  let r := num (el.getAttribute "r")
  if r ≤ 0 then none
  else
    some ("M " ++ fmtN (qSub cx r) ++ " " ++ fmtN cy ++
      " A " ++ fmtN r ++ " " ++ fmtN r ++ " 0 1 0 " ++ fmtN (qAdd cx r) ++ " " ++ fmtN cy ++
      " A " ++ fmtN r ++ " " ++ fmtN r ++ " 0 1 0 " ++ fmtN (qSub cx r) ++ " " ++ fmtN cy ++
      " Z")

/-- Models `ellipseToPath` (`src/unnamed/part_001`, lines 143-155). -/
def ellipseToPath (el : XElem) : Option String :=
  let cx := num (el.getAttribute "cx")
  let cy := num (el.getAttribute "cy")
  let rx := num (el.getAttribute "rx")
  let ry := num (el.getAttribute "ry")
  if rx ≤ 0 ∨ ry ≤ 0 then none
  else
    some ("M " ++ fmtN (qSub cx rx) ++ " " ++ fmtN cy ++
      " A " ++ fmtN rx ++ " " ++ fmtN ry ++ " 0 1 0 " ++ fmtN (qAdd cx rx) ++ " " ++ fmtN cy ++
      " A " ++ fmtN rx ++ " " ++ fmtN ry ++ " 0 1 0 " ++ fmtN (qSub cx rx) ++ " " ++ fmtN cy ++
      " Z")

/-- Models `lineToPath` (`src/unnamed/part_001`, lines 156-162): always a
string, never the `null` signal. -/
def lineToPath (el : XElem) : Option String :=
  let x1 := num (el.getAttribute "x1")
  let y1 := num (el.getAttribute "y1")
  let x2 := num (el.getAttribute "x2")
  let y2 := num (el.getAttribute "y2")
  some ("M " ++ fmtN x1 ++ " " ++ fmtN y1 ++ " L " ++ fmtN x2 ++ " " ++ fmtN y2)

/-- Models `"str".split(/[\s,]+/)`: tokens between maximal runs of whitespace
or commas, with an empty token at either end when the string starts or ends
with a separator (as JavaScript `split` produces). -/
def isSepChar (c : Char) : Bool := isWS c || c = ','

/-- Splitting worker over the character list, fuelled by its length. -/
def splitSepsAux : ℕ → List Char → List String
  | 0, _ => []
  | fuel + 1, cs =>
    let tok := cs.takeWhile (fun c => ¬ isSepChar c)
    match cs.dropWhile (fun c => ¬ isSepChar c) with
    | [] => [String.mk tok]
    | c :: rest => String.mk tok :: splitSepsAux fuel ((c :: rest).dropWhile isSepChar)

/-- JavaScript `split(/[\s,]+/)`. -/
def splitSeps (s : String) : List String := splitSepsAux (s.length + 1) s.data

/-- Positional pairing used by `pointsToArray`'s indexed `forEach`: values at
even positions pair with their successors; a trailing unpaired value and any
pair with a non-finite coordinate are discarded. -/
def pairUp : List String → List (ℚ × ℚ)
  | x :: y :: rest =>
    (match jsParseFloat x, jsParseFloat y with
     | some a, some b => ((a, b)) :: pairUp rest
     | _, _ => pairUp rest)
  | _ => []

/-- Models `pointsToArray` (`src/unnamed/part_001`, lines 163-173). -/
def pointsToArray (pts : Option String) : List (ℚ × ℚ) :=
  match pts with
  | none => []
  | some s => if s = "" then [] else pairUp (splitSeps (jsTrim s))

/-- Joined coordinate list, `pts.map(([x, y]) => x + " " + y).join(" L ")`. -/
def pointsJoined (pts : List (ℚ × ℚ)) : String :=
  String.intercalate " L " (pts.map (fun p => fmtN p.1 ++ " " ++ fmtN p.2))

/-- Models `polylineToPath` (`src/unnamed/part_001`, lines 174-178). -/
def polylineToPath (el : XElem) : Option String :=
  let pts := pointsToArray (el.getAttribute "points")
  if pts = [] then none
  else some ("M " ++ pointsJoined pts)

/-- Models `polygonToPath` (`src/unnamed/part_001`, lines 179-183); the
string is built exactly as the polyline string followed by `" Z"`. -/
def polygonToPath (el : XElem) : Option String :=
  let pts := pointsToArray (el.getAttribute "points")
  if pts = [] then none
  else some (("M " ++ pointsJoined pts) ++ " Z")

example :
    rectToPath (.mk "rect" [("x", "0"), ("y", "0"), ("width", "10"), ("height", "5"),
      ("rx", "0")] []) = some "M 0 0 H 10 V 5 H 0 Z" := by decide
example : rectToPath (.mk "rect" [("width", "10")] []) = none := by decide
example : circleToPath (.mk "circle" [("cx", "5"), ("cy", "5"), ("r", "3")] []) =
    some "M 2 5 A 3 3 0 1 0 8 5 A 3 3 0 1 0 2 5 Z" := by decide
example : circleToPath (.mk "circle" [("cx", "5"), ("cy", "5"), ("r", "0")] []) = none := by
  decide
example : lineToPath (.mk "line" [] []) = some "M 0 0 L 0 0" := by decide
example : pointsToArray (some "0,0 10,0 10,10") = [(0, 0), (10, 0), (10, 10)] := by decide
example : pointsToArray (some "0,0 10,0 10,10 7") = [(0, 0), (10, 0), (10, 10)] := by decide
example : pointsToArray (some "a,b 1,2") = [(1, 2)] := by decide
example : polygonToPath (.mk "polygon" [("points", "0,0 10,0 10,10")] []) =
    some "M 0 0 L 10 0 L 10 10 Z" := by decide
example : polylineToPath (.mk "polyline" [("points", "0,0 10,0 10,10")] []) =
    some "M 0 0 L 10 0 L 10 10" := by decide

/-- Models `String.prototype.toLowerCase` (`tagName.toLowerCase()` in the
source) at the data level, keeping it kernel-reducible. -/
def jsToLower (s : String) : String := String.mk (s.data.map Char.toLower)

/-- The style set handed to the normalizer (`SVGStyle` in the source). -/
structure SVGStyle where
  fillColor : String
  strokeColor : String
  strokeWidth : ℚ
  opacity : ℚ
deriving DecidableEq

/-- The default style set (`DEFAULT_SVG_STYLE` in the source). -/
def DEFAULT_SVG_STYLE : SVGStyle :=
  { fillColor := "#3b82f6", strokeColor := "#1e40af", strokeWidth := 2, opacity := 1 }

/-- Models `isValidSVG` (`src/unnamed/part_001`, lines 87-95): parse, then
`!!doc.querySelector("svg") && !doc.querySelector("parsererror")`.  The
`DOMParser` call never throws, so the surrounding try/catch is modelled by
this function's totality; a parse error is the `none` case. -/
def isValidSVG (content : String) : Bool :=
  match xmlParse content with
  | some doc => (findFirst "svg" doc).isSome
  | none => false

/-- The tag-name dispatch of the normalizer loop (`src/unnamed/part_001`,
lines 210-219): `el.tagName.toLowerCase()` classified over the seven
convertible kinds, everything else contributing `null`. -/
def shapeToD (el : XElem) : Option String :=
  let tag := jsToLower el.tag
  if tag = "path" then el.getAttribute "d"
  else if tag = "rect" then rectToPath el
  else if tag = "circle" then circleToPath el
  else if tag = "ellipse" then ellipseToPath el
  else if tag = "line" then lineToPath el
  else if tag = "polyline" then polylineToPath el
  else if tag = "polygon" then polygonToPath el
  else none

/-- Attributes set on one emitted output path, in `setAttribute` order
(`src/unnamed/part_001`, lines 222-237): `d`, `fill` honouring an explicit
`"none"`, `stroke` honouring `"none"` and carrying `stroke-width` only
otherwise, `opacity`, and the index marker. -/
def emitAttrs (el : XElem) (d : String) (styles : SVGStyle) (idx : ℕ) :
    List (String × String) :=
  [("d", d),
   ("fill", if el.getAttribute "fill" = some "none" then "none" else styles.fillColor)] ++
  (if el.getAttribute "stroke" = some "none" then
    [("stroke", "none")]
  else
    [("stroke", styles.strokeColor),
     ("stroke-width", jsNumToString styles.strokeWidth)]) ++
  [("opacity", jsNumToString styles.opacity),
   ("data-svg-ext-path-idx", toString idx)]

/-- The normalizer's `forEach` over `querySelectorAll("*")` with its running
`pathIdx` counter (`src/unnamed/part_001`, lines 208-241): returns the
emitted paths' attribute lists together with the final counter value. -/
def normLoop (styles : SVGStyle) : List XElem → ℕ → List (List (String × String)) × ℕ
  | [], idx => ([], idx)
  | el :: rest, idx =>
    match shapeToD el with
    | none => normLoop styles rest idx
    | some d =>
      if jsTrim d = "" then normLoop styles rest idx
      else
        let r := normLoop styles rest (idx + 1)
        (emitAttrs el d styles idx :: r.1, r.2)

/-- Removes the first occurrence of `"px"`, as `String(w).replace("px", "")`
does with a string pattern. -/
def replacePxAux : List Char → List Char
  | 'p' :: 'x' :: rest => rest
  | c :: rest => c :: replacePxAux rest
  | [] => []

/-- JavaScript `s.replace("px", "")`. -/
def replaceFirstPx (s : String) : String := String.mk (replacePxAux s.data)

/-- The `width`/`height` fallback of the `viewBox` derivation
(`src/unnamed/part_001`, lines 199-203). -/
def deriveViewBoxFromWH (inSvg : XElem) : String :=
  let wq : Option ℚ :=
    match inSvg.getAttribute "width" with
    | none => none
    | some s => if s = "" then none else jsParseFloat (replaceFirstPx s)
  let hq : Option ℚ :=
    match inSvg.getAttribute "height" with
    | none => none
    | some s => if s = "" then none else jsParseFloat (replaceFirstPx s)
  match wq, hq with
  | some w, some h =>
    if 0 < w ∧ 0 < h then "0 0 " ++ jsNumToString w ++ " " ++ jsNumToString h
    else "0 0 24 24"
  | _, _ => "0 0 24 24"

/-- Output `viewBox` selection (`src/unnamed/part_001`, lines 197-204): keep a
truthy source `viewBox`; otherwise derive `0 0 w h` from positive finite
`width`/`height` (unit suffix `px` stripped); otherwise `0 0 24 24`. -/
def deriveViewBox (inSvg : XElem) : String :=
  let vb := inSvg.getAttribute "viewBox"
  match vb with
  | some v =>
    if v = "" then deriveViewBoxFromWH inSvg else v
  | none => deriveViewBoxFromWH inSvg

/-- The result of one normalization (`{ svg, count }` in the source). -/
structure NormResult where
  svg : String
  count : ℕ
deriving DecidableEq

/-- The parse-and-find step shared by the normalizer, the preview styler and
the validator: `parseFromString` followed by `querySelector("svg")`. -/
def querySvg (content : String) : Option XElem :=
  (xmlParse content).bind (findFirst "svg")

/-- Models `normalizeSVGToPathOnly` (`src/unnamed/part_001`, lines 186-249).
When no `svg` element is found (or the parse fails — the browser parser
signals this through the document rather than by throwing, and the function's
catch-all returns the same fallback), the original text comes back with count
`0`; otherwise a fresh path-only document is built and serialized. -/
def normalizeSVGToPathOnly (svgContent : String) (styles : SVGStyle) : NormResult :=
  match querySvg svgContent with
  | none => ⟨svgContent, 0⟩
  | some inSvg =>
    let vb := deriveViewBox inSvg
    let r := normLoop styles (descendants inSvg) 0
    let outSvg : XElem := .mk "svg"
      [("xmlns", "http://www.w3.org/2000/svg"), ("viewBox", vb),
       ("preserveAspectRatio", "xMidYMid meet")]
      (r.1.map (fun a => XElem.mk "path" a []))
    ⟨serializeElem outSvg, r.2⟩

/-- The structured list of paths the same run of `normalizeSVGToPathOnly`
appends to its output document (empty in the fallback branch, where nothing
is emitted). -/
def normalizeEmittedPaths (svgContent : String) (styles : SVGStyle) :
    List (List (String × String)) :=
  match querySvg svgContent with
  | none => []
  | some inSvg => (normLoop styles (descendants inSvg) 0).1

example :
    normalizeSVGToPathOnly "<svg><rect width=\"10\" height=\"5\"/></svg>" DEFAULT_SVG_STYLE =
      ⟨"<svg xmlns=\"http://www.w3.org/2000/svg\" viewBox=\"0 0 24 24\" preserveAspectRatio=\"xMidYMid meet\"><path d=\"M 0 0 H 10 V 5 H 0 Z\" fill=\"#3b82f6\" stroke=\"#1e40af\" stroke-width=\"2\" opacity=\"1\" data-svg-ext-path-idx=\"0\"/></svg>",
       1⟩ := by decide
example : normalizeSVGToPathOnly "oops" DEFAULT_SVG_STYLE = ⟨"oops", 0⟩ := by decide
example : isValidSVG "<svg></svg>" = true := by decide
example : isValidSVG "<notsvg/>" = false := by decide
example : isValidSVG "not xml at all" = false := by decide

/-- The tag list guarding the preview fill overwrite
(`src/unnamed/part_001`, line 264) — note it has no `"line"` entry. -/
def fillableTags : List String := ["path", "circle", "rect", "ellipse", "polygon", "polyline"]

/-- The tag list guarding the preview stroke overwrite
(`src/unnamed/part_001`, line 267) — this one includes `"line"`. -/
def strokeableTags : List String :=
  ["path", "circle", "rect", "ellipse", "line", "polyline", "polygon"]

/-- Per-element attribute mutation of the preview loop
(`src/unnamed/part_001`, lines 262-274): fill overwritten for fillable tags
unless already `"none"`, stroke and stroke-width likewise for strokeable
tags, and opacity set on every element unconditionally. -/
def previewStyleAttrs (styles : SVGStyle) (tag : String) (attrs0 : List (String × String)) :
    List (String × String) :=
  let tl := jsToLower tag
  let a1 :=
    if tl ∈ fillableTags ∧ ¬ getAttrL attrs0 "fill" = some "none" then
      setAttrL attrs0 "fill" styles.fillColor
    else attrs0
  let a2 :=
    if tl ∈ strokeableTags ∧ ¬ getAttrL a1 "stroke" = some "none" then
      setAttrL (setAttrL a1 "stroke" styles.strokeColor) "stroke-width"
        (jsNumToString styles.strokeWidth)
    else a1
  setAttrL a2 "opacity" (jsNumToString styles.opacity)

mutual
/-- The preview loop applied to an element and, recursively, to all of its
descendants (`svg.querySelectorAll("*")` covers every depth). -/
def previewMapTree (styles : SVGStyle) : XElem → XElem
  | .mk t a cs => .mk t (previewStyleAttrs styles t a) (previewMapList styles cs)
/-- `previewMapTree` over a list of siblings. -/
def previewMapList (styles : SVGStyle) : List XElem → List XElem
  | [] => []
  | c :: cs => previewMapTree styles c :: previewMapList styles cs
end

/-- Root-element handling of the preview styler
(`src/unnamed/part_001`, lines 257-260): default `viewBox` when falsy
(absent or empty), explicit `width`/`height` removed,
`preserveAspectRatio` set; the loop then restyles every proper descendant. -/
def previewRoot (styles : SVGStyle) : XElem → XElem
  | .mk t as cs =>
    let vb := getAttrL as "viewBox"
    let a1 :=
      match vb with
      | none => setAttrL as "viewBox" "0 0 24 24"
      | some v => if v = "" then setAttrL as "viewBox" "0 0 24 24" else as
    let a2 := removeAttrL (removeAttrL a1 "width") "height"
    let a3 := setAttrL a2 "preserveAspectRatio" "xMidYMid meet"
    .mk t a3 (previewMapList styles cs)

/-- Models `applyStylesToSVGForPreview` (`src/unnamed/part_001`, lines
252-279): on failure to locate an `svg` element (parse failure included —
the catch branch) the text comes back unchanged, otherwise the restyled
`svg` subtree is re-serialized. -/
def applyStylesToSVGForPreview (svgContent : String) (styles : SVGStyle) : String :=
  match querySvg svgContent with
  | none => svgContent
  | some svg => serializeElem (previewRoot styles svg)

/-- Structured form of the same preview run (the transformed `svg` element
before serialization), for stating claims about individual elements. -/
def previewDocOf (svgContent : String) (styles : SVGStyle) : Option XElem :=
  (querySvg svgContent).map (previewRoot styles)

example :
    applyStylesToSVGForPreview "<svg><g/></svg>" DEFAULT_SVG_STYLE =
      "<svg viewBox=\"0 0 24 24\" preserveAspectRatio=\"xMidYMid meet\"><g opacity=\"1\"/></svg>" := by
  decide
example : applyStylesToSVGForPreview "not xml at all" DEFAULT_SVG_STYLE = "not xml at all" := by
  decide

/-- A Webflow host node as the Restyle Engine sees it: the
`customAttributes` capability flag (together with the presence of
`setAttribute`, collapsed into one flag) and the attributes set so far. -/
structure HostNode where
  customAttributes : Bool
  attrs : List (String × String)
deriving DecidableEq

/-- The stored reference set for one inserted artifact (`WFRef` in the
source): container, svg root and the created path nodes in order. -/
structure WFRef where
  container : HostNode
  svgRoot : HostNode
  paths : List HostNode
deriving DecidableEq

/-- The path-target selector (`number | "all"` in the source). -/
inductive PathTarget : Type where
  | all : PathTarget
  | idx : ℕ → PathTarget
deriving DecidableEq

/-- The `updateOne` closure of `restyleExistingInWebflow`
(`src/unnamed/part_001`, lines 372-380): skip nodes without the attribute
capability, otherwise set `opacity`, `fill`, `stroke`, `stroke-width`
unconditionally, in that order. -/
def updateOne (styles : SVGStyle) (el : HostNode) : HostNode :=
  if el.customAttributes then
    { el with
      attrs :=
        setAttrL
          (setAttrL
            (setAttrL (setAttrL el.attrs "opacity" (jsNumToString styles.opacity)) "fill"
              styles.fillColor)
            "stroke" styles.strokeColor)
          "stroke-width" (jsNumToString styles.strokeWidth) }
  else el

/-- `ref.paths[i]` updated in place when the index is within bounds
(`if (p) await updateOne(p)`), the list unchanged otherwise. -/
def updatePathsAt (styles : SVGStyle) : ℕ → List HostNode → List HostNode
  | _, [] => []
  | 0, p :: rest => updateOne styles p :: rest
  | n + 1, p :: rest => p :: updatePathsAt styles n rest

/-- Models `restyleExistingInWebflow` (`src/unnamed/part_001`, lines
368-390).  The `wfRefs[item.id]` lookup is modelled by passing the stored
reference (or `none`) directly; the host tree's state change is returned as
the updated reference.  Returns `false` when nothing is stored, `true` as
soon as a reference exists. -/
def restyleExistingInWebflow (ref : Option WFRef) (styles : SVGStyle) (t : PathTarget) :
    Option WFRef × Bool :=
  match ref with
  | none => (none, false)
  | some r =>
    match t with
    | .all => (some { r with paths := r.paths.map (updateOne styles) }, true)
    | .idx i => (some { r with paths := updatePathsAt styles i r.paths }, true)

/-! ### Helper lemmas about attribute lists and the normalizer loop -/

theorem getAttrL_append (l₁ l₂ : List (String × String)) (m : String) :
    getAttrL (l₁ ++ l₂) m =
      match getAttrL l₁ m with
      | some v => some v
      | none => getAttrL l₂ m := by
  induction l₁ with
  | nil => simp [getAttrL]
  | cons p rest ih =>
    by_cases hp : p.1 = m
    · cases p; simp_all [getAttrL]
    · cases p; simp_all [getAttrL]

theorem getAttrL_setAttrL_self (l : List (String × String)) (n v : String) :
    getAttrL (setAttrL l n v) n = some v := by
  induction l with
  | nil => simp [setAttrL, getAttrL]
  | cons p rest ih =>
    cases p with
    | mk k w =>
      by_cases hk : k = n
      · simp [setAttrL, hk, getAttrL]
      · simpa [setAttrL, hk, getAttrL] using ih

theorem getAttrL_setAttrL_other (l : List (String × String)) (n v m : String)
    (hm : ¬ m = n) : getAttrL (setAttrL l n v) m = getAttrL l m := by
  induction l with
  | nil =>
    simp only [setAttrL, getAttrL]
    rw [if_neg (fun hh : n = m => hm hh.symm)]
  | cons p rest ih =>
    cases p with
    | mk k w =>
      by_cases hk : k = n
      · subst hk
        simp only [setAttrL, if_pos rfl, getAttrL]
        rw [if_neg (fun hh : k = m => hm hh.symm), if_neg (fun hh : k = m => hm hh.symm)]
      · simp only [setAttrL, getAttrL]
        rw [if_neg hk]
        by_cases hkm : k = m
        · subst hkm
          simp [getAttrL]
        · simp only [getAttrL]
          rw [if_neg hkm, if_neg hkm]
          exact ih

theorem getAttrL_removeAttrL_self (l : List (String × String)) (n : String) :
    getAttrL (removeAttrL l n) n = none := by
  induction l with
  | nil => simp [removeAttrL, getAttrL]
  | cons p rest ih =>
    cases p with
    | mk k v =>
      by_cases hp : k = n
      · simpa [removeAttrL, hp] using ih
      · simp only [removeAttrL, List.filter_cons]
        rw [if_pos (by simpa using hp)]
        simp only [getAttrL]
        rw [if_neg hp]
        simpa [removeAttrL] using ih

theorem getAttrL_removeAttrL_other (l : List (String × String)) (n m : String)
    (hm : ¬ m = n) : getAttrL (removeAttrL l n) m = getAttrL l m := by
  induction l with
  | nil => simp [removeAttrL]
  | cons p rest ih =>
    cases p with
    | mk k v =>
      by_cases hp : k = n
      · subst hp
        simp only [removeAttrL, List.filter_cons]
        rw [if_neg (by simp)]
        simp only [getAttrL]
        rw [if_neg (fun hh : k = m => hm hh.symm)]
        simpa [removeAttrL] using ih
      · simp only [removeAttrL, List.filter_cons]
        rw [if_pos (by simpa using hp)]
        simp only [getAttrL]
        by_cases hkm : k = m
        · subst hkm
          rw [if_pos rfl, if_pos rfl]
        · rw [if_neg hkm, if_neg hkm]
          simpa [removeAttrL] using ih

theorem jsTrim_ne_empty_of_head (c : Char) (l : List Char) (hc : isWS c = false) :
    ¬ jsTrim (String.mk (c :: l)) = "" := by
  intro he
  have h1 : (((c :: l).dropWhile isWS).reverse.dropWhile isWS).reverse = [] := by
    have := congrArg String.data he
    simpa [jsTrim] using this
  rw [List.dropWhile_cons_of_neg (by simp [hc])] at h1
  have h2 : (c :: l).reverse.dropWhile isWS = [] := by
    simpa using congrArg List.reverse h1
  have h3 := (List.dropWhile_eq_nil_iff).mp h2
  have hc' : isWS c = true := h3 c (by simp)
  rw [hc] at hc'
  exact Bool.false_ne_true hc'

theorem jsTrim_ne_empty_of_data (s : String) (c : Char) (hc : isWS c = false)
    (h : ∃ l, s.data = c :: l) : ¬ jsTrim s = "" := by
  obtain ⟨l, hl⟩ := h
  have hs : s = String.mk (c :: l) := by
    cases s with
    | mk d => exact congrArg String.mk (by simpa using hl)
  rw [hs]
  exact jsTrim_ne_empty_of_head c l hc

theorem emitAttrs_d (el : XElem) (d : String) (styles : SVGStyle) (idx : ℕ) :
    getAttrL (emitAttrs el d styles idx) "d" = some d := by
  by_cases h : el.getAttribute "stroke" = some "none" <;> simp [emitAttrs, h, getAttrL]

theorem emitAttrs_fill (el : XElem) (d : String) (styles : SVGStyle) (idx : ℕ) :
    getAttrL (emitAttrs el d styles idx) "fill" =
      some (if el.getAttribute "fill" = some "none" then "none" else styles.fillColor) := by
  by_cases h : el.getAttribute "stroke" = some "none" <;> simp [emitAttrs, h, getAttrL]

theorem emitAttrs_stroke (el : XElem) (d : String) (styles : SVGStyle) (idx : ℕ) :
    getAttrL (emitAttrs el d styles idx) "stroke" =
      some (if el.getAttribute "stroke" = some "none" then "none" else styles.strokeColor) := by
  by_cases h : el.getAttribute "stroke" = some "none" <;> simp [emitAttrs, h, getAttrL]

theorem emitAttrs_strokeWidth (el : XElem) (d : String) (styles : SVGStyle) (idx : ℕ) :
    getAttrL (emitAttrs el d styles idx) "stroke-width" =
      (if el.getAttribute "stroke" = some "none" then none
       else some (jsNumToString styles.strokeWidth)) := by
  by_cases h : el.getAttribute "stroke" = some "none" <;> simp [emitAttrs, h, getAttrL]

theorem emitAttrs_opacity (el : XElem) (d : String) (styles : SVGStyle) (idx : ℕ) :
    getAttrL (emitAttrs el d styles idx) "opacity" = some (jsNumToString styles.opacity) := by
  by_cases h : el.getAttribute "stroke" = some "none" <;> simp [emitAttrs, h, getAttrL]

theorem emitAttrs_idx (el : XElem) (d : String) (styles : SVGStyle) (idx : ℕ) :
    getAttrL (emitAttrs el d styles idx) "data-svg-ext-path-idx" = some (toString idx) := by
  by_cases h : el.getAttribute "stroke" = some "none" <;> simp [emitAttrs, h, getAttrL]

theorem normLoop_snd (styles : SVGStyle) :
    ∀ (els : List XElem) (idx : ℕ),
      (normLoop styles els idx).2 = idx + (normLoop styles els idx).1.length := by
  intro els
  induction els with
  | nil => intro idx; simp [normLoop]
  | cons el rest ih =>
    intro idx
    cases h : shapeToD el with
    | none => simpa [normLoop, h] using ih idx
    | some d =>
      by_cases ht : jsTrim d = ""
      · simpa [normLoop, h, ht] using ih idx
      · simp only [normLoop, h, if_neg ht, List.length_cons]
        rw [ih (idx + 1)]
        omega

theorem normLoop_idx_map (styles : SVGStyle) :
    ∀ (els : List XElem) (idx : ℕ),
      (normLoop styles els idx).1.map (fun a => getAttrL a "data-svg-ext-path-idx") =
        (List.range (normLoop styles els idx).1.length).map
          (fun n => some (toString (idx + n))) := by
  intro els
  induction els with
  | nil => intro idx; simp [normLoop]
  | cons el rest ih =>
    intro idx
    cases h : shapeToD el with
    | none => simpa [normLoop, h] using ih idx
    | some d =>
      by_cases ht : jsTrim d = ""
      · simpa [normLoop, h, ht] using ih idx
      · simp only [normLoop, h, if_neg ht, List.length_cons, List.map_cons]
        rw [emitAttrs_idx, List.range_succ_eq_map, List.map_cons, List.map_map]
        simp only [List.cons.injEq]
        constructor
        · rw [Nat.add_zero]
        · rw [ih (idx + 1)]
          apply List.map_congr_left
          intro a _
          simp only [Function.comp_apply, Nat.succ_eq_add_one]
          rw [Nat.add_assoc, Nat.add_comm 1 a]

theorem normLoop_mem (styles : SVGStyle) :
    ∀ (els : List XElem) (idx : ℕ) (p : List (String × String)),
      p ∈ (normLoop styles els idx).1 →
        ∃ el, el ∈ els ∧ ∃ d i, shapeToD el = some d ∧ p = emitAttrs el d styles i := by
  intro els
  induction els with
  | nil => intro idx p hp; simp [normLoop] at hp
  | cons el0 rest ih =>
    intro idx p hp
    cases h : shapeToD el0 with
    | none =>
      simp only [normLoop, h] at hp
      obtain ⟨el, hel, hrest⟩ := ih idx p hp
      exact ⟨el, List.mem_cons_of_mem _ hel, hrest⟩
    | some d =>
      by_cases ht : jsTrim d = ""
      · simp only [normLoop, h, if_pos ht] at hp
        obtain ⟨el, hel, hrest⟩ := ih idx p hp
        exact ⟨el, List.mem_cons_of_mem _ hel, hrest⟩
      · simp only [normLoop, h, if_neg ht] at hp
        rcases List.mem_cons.mp hp with hp | hp
        · exact ⟨el0, List.mem_cons_self _ _, d, idx, h, hp⟩
        · obtain ⟨el, hel, hrest⟩ := ih (idx + 1) p hp
          exact ⟨el, List.mem_cons_of_mem _ hel, hrest⟩

/-! ### Claim theorems -/

/-- C1: every shape element emitted by the normalizer carries `fill="none"`
when its source element's own `fill` attribute is literally `"none"` and
`styles.fillColor` otherwise; `stroke` analogously from `styles.strokeColor`;
`stroke-width` is present exactly when the resulting stroke is not `"none"`
(and then equals `styles.strokeWidth`); and `opacity` always equals
`styles.opacity`. -/
theorem c1_emitted_path_styles (content : String) (styles : SVGStyle)
    (p : List (String × String)) (hp : p ∈ normalizeEmittedPaths content styles) :
    ∃ inSvg el, querySvg content = some inSvg ∧ el ∈ descendants inSvg ∧
      getAttrL p "fill" =
        some (if el.getAttribute "fill" = some "none" then "none" else styles.fillColor) ∧
      getAttrL p "stroke" =
        some (if el.getAttribute "stroke" = some "none" then "none" else styles.strokeColor) ∧
      getAttrL p "stroke-width" =
        (if el.getAttribute "stroke" = some "none" then none
         else some (jsNumToString styles.strokeWidth)) ∧
      getAttrL p "opacity" = some (jsNumToString styles.opacity) := by
  unfold normalizeEmittedPaths at hp
  cases hq : querySvg content with
  | none => simp only [hq] at hp; simp at hp
  | some inSvg =>
    simp only [hq] at hp
    obtain ⟨el, hel, d, i, hd, rfl⟩ := normLoop_mem styles (descendants inSvg) 0 p hp
    exact ⟨inSvg, el, rfl, hel,
      emitAttrs_fill el d styles i, emitAttrs_stroke el d styles i,
      emitAttrs_strokeWidth el d styles i, emitAttrs_opacity el d styles i⟩

/-- Witness for C1 at the spec's own example: one `rect` with `fill="none"`
and one `circle` without a fill attribute, normalized with
`fillColor = "#ff0000"`; the rect path keeps `"none"`, the circle path gets
`"#ff0000"`. -/
theorem c1_emitted_path_styles_witness :
    (normalizeEmittedPaths
        "<svg><rect fill=\"none\" width=\"10\" height=\"5\"/><circle r=\"3\"/></svg>"
        ⟨"#ff0000", "#1e40af", 2, 1⟩).map (fun a => getAttrL a "fill") =
      [some "none", some "#ff0000"] ∧
    (∃ inSvg el,
      querySvg "<svg><rect fill=\"none\" width=\"10\" height=\"5\"/><circle r=\"3\"/></svg>" =
        some inSvg ∧ el ∈ descendants inSvg ∧
      getAttrL [("d", "M 0 0 H 10 V 5 H 0 Z"), ("fill", "none"), ("stroke", "#1e40af"),
          ("stroke-width", "2"), ("opacity", "1"), ("data-svg-ext-path-idx", "0")] "fill" =
        some (if el.getAttribute "fill" = some "none" then "none" else "#ff0000") ∧
      getAttrL [("d", "M 0 0 H 10 V 5 H 0 Z"), ("fill", "none"), ("stroke", "#1e40af"),
          ("stroke-width", "2"), ("opacity", "1"), ("data-svg-ext-path-idx", "0")] "stroke" =
        some (if el.getAttribute "stroke" = some "none" then "none" else "#1e40af") ∧
      getAttrL [("d", "M 0 0 H 10 V 5 H 0 Z"), ("fill", "none"), ("stroke", "#1e40af"),
          ("stroke-width", "2"), ("opacity", "1"), ("data-svg-ext-path-idx", "0")]
          "stroke-width" =
        (if el.getAttribute "stroke" = some "none" then none
         else some (jsNumToString (2 : ℚ))) ∧
      getAttrL [("d", "M 0 0 H 10 V 5 H 0 Z"), ("fill", "none"), ("stroke", "#1e40af"),
          ("stroke-width", "2"), ("opacity", "1"), ("data-svg-ext-path-idx", "0")] "opacity" =
        some (jsNumToString (1 : ℚ))) :=
  ⟨by decide,
   c1_emitted_path_styles
     "<svg><rect fill=\"none\" width=\"10\" height=\"5\"/><circle r=\"3\"/></svg>"
     ⟨"#ff0000", "#1e40af", 2, 1⟩
     [("d", "M 0 0 H 10 V 5 H 0 Z"), ("fill", "none"), ("stroke", "#1e40af"),
      ("stroke-width", "2"), ("opacity", "1"), ("data-svg-ext-path-idx", "0")]
     (by decide)⟩

/-- C2: the count returned by the normalizer equals the number of emitted
path elements, and the emitted index attributes are exactly
`0, 1, ..., count-1` in document order of the representable source shapes
(unique, contiguous, starting at 0; determinism is immediate because the
embedding is a pure function of the input text and styles). -/
theorem c2_count_and_indices (content : String) (styles : SVGStyle) :
    (normalizeSVGToPathOnly content styles).count =
      (normalizeEmittedPaths content styles).length ∧
    (normalizeEmittedPaths content styles).map (fun a => getAttrL a "data-svg-ext-path-idx") =
      (List.range (normalizeEmittedPaths content styles).length).map
        (fun n => some (toString n)) := by
  unfold normalizeSVGToPathOnly normalizeEmittedPaths
  cases hq : querySvg content with
  | none => simp [hq]
  | some inSvg =>
    simp only [hq]
    constructor
    · simpa using normLoop_snd styles (descendants inSvg) 0
    · simpa using normLoop_idx_map styles (descendants inSvg) 0

/-- C3: `rectToPath` returns the not-representable signal when the parsed
width or height is non-positive (missing or non-finite attributes fall back
to `0` inside `num`); with positive sides and no positive corner radius it
returns the four-segment closed path using only `H`/`V` line commands, and on
`x=0, y=0, w=10, h=5, rx=0` exactly `"M 0 0 H 10 V 5 H 0 Z"`. -/
theorem c3_rectToPath_shape :
    (∀ el : XElem,
      num (el.getAttribute "width") ≤ 0 ∨ num (el.getAttribute "height") ≤ 0 →
        rectToPath el = none) ∧
    (∀ el : XElem,
      0 < num (el.getAttribute "width") → 0 < num (el.getAttribute "height") →
      num (el.getAttribute "rx") ≤ 0 → num (el.getAttribute "ry") ≤ 0 →
        rectToPath el =
          some ("M " ++ fmtN (num (el.getAttribute "x")) ++ " " ++
            fmtN (num (el.getAttribute "y")) ++ " H " ++
            fmtN (qAdd (num (el.getAttribute "x")) (num (el.getAttribute "width"))) ++ " V " ++
            fmtN (qAdd (num (el.getAttribute "y")) (num (el.getAttribute "height"))) ++ " H " ++
            fmtN (num (el.getAttribute "x")) ++ " Z")) ∧
    rectToPath (.mk "rect"
        [("x", "0"), ("y", "0"), ("width", "10"), ("height", "5"), ("rx", "0")] []) =
      some "M 0 0 H 10 V 5 H 0 Z" := by
  refine ⟨?_, ?_, by decide⟩
  · intro el h
    simp only [rectToPath]
    rw [if_pos h]
  · intro el hw hh hrx hry
    simp only [rectToPath]
    rw [if_neg (by push_neg; exact ⟨hw, hh⟩)]
    rw [if_neg (by push_neg; exact ⟨hrx, hry⟩)]

/-- Witness for C3: both hypothesised branches applied at concrete rects. -/
theorem c3_rectToPath_shape_witness :
    rectToPath (.mk "rect" [("width", "0"), ("height", "5")] []) = none ∧
    rectToPath (.mk "rect"
        [("x", "0"), ("y", "0"), ("width", "10"), ("height", "5"), ("rx", "0")] []) =
      some "M 0 0 H 10 V 5 H 0 Z" := by
  constructor
  · exact c3_rectToPath_shape.1 (.mk "rect" [("width", "0"), ("height", "5")] [])
      (by decide)
  · have h := c3_rectToPath_shape.2.1 (.mk "rect"
      [("x", "0"), ("y", "0"), ("width", "10"), ("height", "5"), ("rx", "0")] [])
      (by decide) (by decide) (by decide) (by decide)
    rw [h]
    decide

/-- C4: `circleToPath` returns the not-representable signal when the parsed
radius is non-positive (a missing or non-finite `r` falls back to `0`), and
the normalizer then skips the circle without consuming an index; with a
positive radius it returns the closed two-arc path of two 180-degree arcs
starting at `(cx - r, cy)` — for `cx=5, cy=5, r=3` the path starts at
`(2,5)` — and never a single 360-degree arc. -/
theorem c4_circleToPath_shape :
    (∀ el : XElem, num (el.getAttribute "r") ≤ 0 → circleToPath el = none) ∧
    (∀ (styles : SVGStyle) (el : XElem) (rest : List XElem) (idx : ℕ),
      jsToLower el.tag = "circle" → num (el.getAttribute "r") ≤ 0 →
        normLoop styles (el :: rest) idx = normLoop styles rest idx) ∧
    (∀ el : XElem, 0 < num (el.getAttribute "r") →
      circleToPath el =
        some ("M " ++ fmtN (qSub (num (el.getAttribute "cx")) (num (el.getAttribute "r"))) ++
          " " ++ fmtN (num (el.getAttribute "cy")) ++
          " A " ++ fmtN (num (el.getAttribute "r")) ++ " " ++
          fmtN (num (el.getAttribute "r")) ++ " 0 1 0 " ++
          fmtN (qAdd (num (el.getAttribute "cx")) (num (el.getAttribute "r"))) ++ " " ++
          fmtN (num (el.getAttribute "cy")) ++
          " A " ++ fmtN (num (el.getAttribute "r")) ++ " " ++
          fmtN (num (el.getAttribute "r")) ++ " 0 1 0 " ++
          fmtN (qSub (num (el.getAttribute "cx")) (num (el.getAttribute "r"))) ++ " " ++
          fmtN (num (el.getAttribute "cy")) ++ " Z")) ∧
    circleToPath (.mk "circle" [("cx", "5"), ("cy", "5"), ("r", "3")] []) =
      some "M 2 5 A 3 3 0 1 0 8 5 A 3 3 0 1 0 2 5 Z" ∧
    circleToPath (.mk "circle" [("cx", "5"), ("cy", "5"), ("r", "0")] []) = none := by
  refine ⟨?_, ?_, ?_, by decide, by decide⟩
  · intro el h
    simp only [circleToPath]
    rw [if_pos h]
  · intro styles el rest idx htag hr
    have hc : circleToPath el = none := by
      simp only [circleToPath]
      rw [if_pos hr]
    have hs : shapeToD el = none := by
      simp only [shapeToD, htag]
      simp [hc]
    simp only [normLoop, hs]
  · intro el h
    simp only [circleToPath]
    rw [if_neg (by push_neg; exact h)]

/-- Witness for C4: the hypothesised parts applied at concrete circles. -/
theorem c4_circleToPath_shape_witness :
    circleToPath (.mk "circle" [("cx", "5"), ("cy", "5"), ("r", "0")] []) = none ∧
    normLoop DEFAULT_SVG_STYLE [.mk "circle" [("r", "0")] []] 0 =
      normLoop DEFAULT_SVG_STYLE [] 0 ∧
    circleToPath (.mk "circle" [("cx", "5"), ("cy", "5"), ("r", "3")] []) =
      some "M 2 5 A 3 3 0 1 0 8 5 A 3 3 0 1 0 2 5 Z" := by
  refine ⟨c4_circleToPath_shape.1 _ (by decide),
    c4_circleToPath_shape.2.1 DEFAULT_SVG_STYLE (.mk "circle" [("r", "0")] []) [] 0
      (by decide) (by decide), ?_⟩
  have h := c4_circleToPath_shape.2.2.1 (.mk "circle" [("cx", "5"), ("cy", "5"), ("r", "3")] [])
    (by decide)
  rw [h]
  decide

/-- C5: `polylineToPath` and `polygonToPath` share the `pointsToArray`
parsing (whitespace/comma-delimited values paired positionally, trailing
unpaired values and non-finite pairs discarded); on a non-empty pair list the
polygon output is the polyline output followed by `" Z"`, and both return the
not-representable signal on an empty pair list. -/
theorem c5_polygon_closes_polyline :
    (∀ el : XElem, polygonToPath el = (polylineToPath el).map (fun s => s ++ " Z")) ∧
    (∀ el : XElem, pointsToArray (el.getAttribute "points") = [] →
      polylineToPath el = none ∧ polygonToPath el = none) ∧
    pointsToArray (some "0,0 10,0 10,10") = [(0, 0), (10, 0), (10, 10)] ∧
    pointsToArray (some "0,0 10,0 10,10 7") = [(0, 0), (10, 0), (10, 10)] ∧
    pointsToArray (some "a,b 1,2") = [(1, 2)] ∧
    polygonToPath (.mk "polygon" [("points", "0,0 10,0 10,10")] []) =
      some "M 0 0 L 10 0 L 10 10 Z" ∧
    polylineToPath (.mk "polyline" [("points", "0,0 10,0 10,10")] []) =
      some "M 0 0 L 10 0 L 10 10" := by
  refine ⟨?_, ?_, by decide, by decide, by decide, by decide, by decide⟩
  · intro el
    simp only [polygonToPath, polylineToPath]
    by_cases h : pointsToArray (el.getAttribute "points") = []
    · rw [if_pos h, if_pos h]; rfl
    · rw [if_neg h, if_neg h]; rfl
  · intro el h
    constructor
    · simp only [polylineToPath]
      rw [if_pos h]
    · simp only [polygonToPath]
      rw [if_pos h]

/-- Witness for C5: the empty-points branch applied at a concrete element. -/
theorem c5_polygon_closes_polyline_witness :
    polylineToPath (.mk "polyline" [("points", "  ")] []) = none ∧
    polygonToPath (.mk "polyline" [("points", "  ")] []) = none :=
  c5_polygon_closes_polyline.2.1 (.mk "polyline" [("points", "  ")] []) (by decide)

/-- C10: `lineToPath` is total and never signals not-representable: each of
`x1, y1, x2, y2` falls back to `0` when missing or non-finite and the result
is always `"M x1 y1 L x2 y2"`; even a fully-degenerate line (all attributes
absent) normalizes to a path and consumes a shape index, unlike the other
shape kinds. -/
theorem c10_lineToPath_total :
    (∀ el : XElem,
      lineToPath el =
        some ("M " ++ fmtN (num (el.getAttribute "x1")) ++ " " ++
          fmtN (num (el.getAttribute "y1")) ++ " L " ++
          fmtN (num (el.getAttribute "x2")) ++ " " ++
          fmtN (num (el.getAttribute "y2")))) ∧
    lineToPath (.mk "line" [] []) = some "M 0 0 L 0 0" ∧
    (∀ (styles : SVGStyle) (el : XElem) (rest : List XElem) (idx : ℕ),
      jsToLower el.tag = "line" →
        ∃ d, shapeToD el = some d ∧ ¬ jsTrim d = "" ∧
          normLoop styles (el :: rest) idx =
            (emitAttrs el d styles idx :: (normLoop styles rest (idx + 1)).1,
             (normLoop styles rest (idx + 1)).2)) := by
  refine ⟨fun el => rfl, by decide, ?_⟩
  intro styles el rest idx htag
  refine ⟨"M " ++ fmtN (num (el.getAttribute "x1")) ++ " " ++
      fmtN (num (el.getAttribute "y1")) ++ " L " ++
      fmtN (num (el.getAttribute "x2")) ++ " " ++
      fmtN (num (el.getAttribute "y2")), ?_, ?_, ?_⟩
  · simp only [shapeToD, htag]
    rfl
  · exact jsTrim_ne_empty_of_data _ 'M' (by decide) ⟨_, rfl⟩
  · have hs : shapeToD el =
        some ("M " ++ fmtN (num (el.getAttribute "x1")) ++ " " ++
          fmtN (num (el.getAttribute "y1")) ++ " L " ++
          fmtN (num (el.getAttribute "x2")) ++ " " ++
          fmtN (num (el.getAttribute "y2"))) := by
      simp only [shapeToD, htag]
      rfl
    simp only [normLoop, hs]
    have hne := jsTrim_ne_empty_of_data
      ("M " ++ fmtN (num (el.getAttribute "x1")) ++ " " ++
        fmtN (num (el.getAttribute "y1")) ++ " L " ++ fmtN (num (el.getAttribute "x2")) ++ " " ++
        fmtN (num (el.getAttribute "y2"))) 'M' (by decide) ⟨_, rfl⟩
    rw [if_neg hne]

/-- Witness for C10: an attribute-free line element is emitted by the
normalizer loop and consumes index 0. -/
theorem c10_lineToPath_total_witness :
    ∃ d, shapeToD (.mk "line" [] []) = some d ∧ ¬ jsTrim d = "" ∧
      normLoop DEFAULT_SVG_STYLE [.mk "line" [] []] 0 =
        (emitAttrs (.mk "line" [] []) d DEFAULT_SVG_STYLE 0 ::
          (normLoop DEFAULT_SVG_STYLE [] 1).1,
         (normLoop DEFAULT_SVG_STYLE [] 1).2) :=
  c10_lineToPath_total.2.2 DEFAULT_SVG_STYLE (.mk "line" [] []) [] 0 (by decide)

mutual
theorem findFirst_isSome_iff (t : String) :
    ∀ e : XElem, (findFirst t e).isSome = true ↔
      e.tag = t ∨ ∃ d ∈ descendants e, d.tag = t
  | .mk tg a cs => by
    simp only [findFirst, descendants, XElem.tag]
    by_cases h : tg = t
    · simp [h]
    · simp only [if_neg h, h, false_or]
      exact findFirstList_isSome_iff t cs
theorem findFirstList_isSome_iff (t : String) :
    ∀ l : List XElem, (findFirstList t l).isSome = true ↔
      ∃ d ∈ descendantsList l, d.tag = t
  | [] => by simp [findFirstList, descendantsList]
  | c :: cs => by
    simp only [findFirstList, descendantsList]
    cases h : findFirst t c with
    | some r =>
      have hc : (findFirst t c).isSome = true := by simp [h]
      rw [findFirst_isSome_iff t c] at hc
      simp only [Option.isSome_some, true_iff]
      rcases hc with hc | ⟨d, hd, hdt⟩
      · exact ⟨c, by simp, hc⟩
      · exact ⟨d, by simp [hd], hdt⟩
    | none =>
      have hc : ¬ (findFirst t c).isSome = true := by simp [h]
      rw [findFirst_isSome_iff t c] at hc
      push_neg at hc
      rw [findFirstList_isSome_iff t cs]
      constructor
      · rintro ⟨d, hd, hdt⟩
        exact ⟨d, by simp [hd], hdt⟩
      · rintro ⟨d, hd, hdt⟩
        simp only [List.mem_cons, List.mem_append] at hd
        rcases hd with rfl | hd | hd
        · exact absurd hdt hc.1
        · exact absurd hdt (hc.2 d hd)
        · exact ⟨d, hd, hdt⟩
end

/-- C6 counterexample: on `"<x><svg/></x>"` the validator answers `true`
although the document's root element is `x`, not `svg` — `querySelector`
accepts an `svg` element anywhere in the tree, so validity is not equivalent
to "a root svg element exists". -/
theorem c6_isValidSVG_counterexample :
    isValidSVG "<x><svg/></x>" = true ∧
    ¬ Option.map XElem.tag (xmlParse "<x><svg/></x>") = some "svg" := by decide

/-- C6 (amended): `isValidSVG` returns `true` exactly when the text parses
without error and the resulting document contains an element named `svg`
anywhere (root included, but not necessarily the root); it never throws (the
embedding is total) and in particular accepts `"<svg></svg>"` and rejects
`"<notsvg/>"` and `"not xml at all"`. -/
theorem c6_isValidSVG_characterization :
    (∀ s : String, isValidSVG s = true ↔
      ∃ doc, xmlParse s = some doc ∧
        (doc.tag = "svg" ∨ ∃ d ∈ descendants doc, d.tag = "svg")) ∧
    isValidSVG "<svg></svg>" = true ∧
    isValidSVG "<notsvg/>" = false ∧
    isValidSVG "not xml at all" = false := by
  refine ⟨?_, by decide, by decide, by decide⟩
  intro s
  unfold isValidSVG
  cases h : xmlParse s with
  | none => simp
  | some doc =>
    constructor
    · intro hh
      exact ⟨doc, rfl, (findFirst_isSome_iff "svg" doc).mp hh⟩
    · rintro ⟨doc', hd', hspec⟩
      have hdd : doc' = doc := ((Option.some.injEq _ _).mp hd').symm
      subst hdd
      exact (findFirst_isSome_iff "svg" doc').mpr hspec

/-- C7 counterexample: `"<a><svg><rect width=5 height=5/></svg></a>"` has no
root `svg` element (its root is `a`), yet the normalizer finds the nested
`svg` via `querySelector` and returns `pathCount = 1`, not an empty result. -/
theorem c7_normalize_counterexample :
    Option.map XElem.tag (xmlParse "<a><svg><rect width=\"5\" height=\"5\"/></svg></a>") =
      some "a" ∧
    (normalizeSVGToPathOnly "<a><svg><rect width=\"5\" height=\"5\"/></svg></a>"
        DEFAULT_SVG_STYLE).count = 1 := by decide

/-- C7 (amended): whenever the parse-and-query step finds no `svg` element
anywhere (parse failure included), the normalizer returns the original text
with `pathCount = 0` and emits nothing; no exception reaches the caller — the
embedding is total, the source's catch branch being the `none` case of the
parse. -/
theorem c7_normalize_fallback (content : String) (styles : SVGStyle)
    (h : querySvg content = none) :
    normalizeSVGToPathOnly content styles = ⟨content, 0⟩ ∧
    normalizeEmittedPaths content styles = [] := by
  constructor <;> simp [normalizeSVGToPathOnly, normalizeEmittedPaths, h]

/-- Witness for C7 at an unparseable input. -/
theorem c7_normalize_fallback_witness :
    normalizeSVGToPathOnly "not xml at all" DEFAULT_SVG_STYLE = ⟨"not xml at all", 0⟩ ∧
    normalizeEmittedPaths "not xml at all" DEFAULT_SVG_STYLE = [] :=
  c7_normalize_fallback "not xml at all" DEFAULT_SVG_STYLE (by decide)

theorem previewStyleAttrs_opacity (styles : SVGStyle) (tag : String)
    (attrs0 : List (String × String)) :
    getAttrL (previewStyleAttrs styles tag attrs0) "opacity" =
      some (jsNumToString styles.opacity) := by
  unfold previewStyleAttrs
  exact getAttrL_setAttrL_self _ _ _

theorem previewStyleAttrs_fill (styles : SVGStyle) (tag : String)
    (attrs0 : List (String × String)) :
    getAttrL (previewStyleAttrs styles tag attrs0) "fill" =
      (if jsToLower tag ∈ fillableTags ∧ ¬ getAttrL attrs0 "fill" = some "none"
       then some styles.fillColor else getAttrL attrs0 "fill") := by
  unfold previewStyleAttrs
  rw [getAttrL_setAttrL_other _ _ _ _ (by decide)]
  by_cases hs : jsToLower tag ∈ strokeableTags ∧
      ¬ getAttrL (if jsToLower tag ∈ fillableTags ∧ ¬ getAttrL attrs0 "fill" = some "none"
        then setAttrL attrs0 "fill" styles.fillColor else attrs0) "stroke" = some "none"
  · rw [if_pos hs]
    rw [getAttrL_setAttrL_other _ _ _ _ (by decide),
      getAttrL_setAttrL_other _ _ _ _ (by decide)]
    by_cases hf : jsToLower tag ∈ fillableTags ∧ ¬ getAttrL attrs0 "fill" = some "none"
    · rw [if_pos hf, if_pos hf, getAttrL_setAttrL_self]
    · rw [if_neg hf, if_neg hf]
  · rw [if_neg hs]
    by_cases hf : jsToLower tag ∈ fillableTags ∧ ¬ getAttrL attrs0 "fill" = some "none"
    · rw [if_pos hf, if_pos hf, getAttrL_setAttrL_self]
    · rw [if_neg hf, if_neg hf]

theorem previewStyleAttrs_a1_stroke (styles : SVGStyle) (tag : String)
    (attrs0 : List (String × String)) :
    getAttrL (if jsToLower tag ∈ fillableTags ∧ ¬ getAttrL attrs0 "fill" = some "none"
      then setAttrL attrs0 "fill" styles.fillColor else attrs0) "stroke" =
      getAttrL attrs0 "stroke" := by
  by_cases hf : jsToLower tag ∈ fillableTags ∧ ¬ getAttrL attrs0 "fill" = some "none"
  · rw [if_pos hf, getAttrL_setAttrL_other _ _ _ _ (by decide)]
  · rw [if_neg hf]

theorem previewStyleAttrs_stroke (styles : SVGStyle) (tag : String)
    (attrs0 : List (String × String)) :
    getAttrL (previewStyleAttrs styles tag attrs0) "stroke" =
      (if jsToLower tag ∈ strokeableTags ∧ ¬ getAttrL attrs0 "stroke" = some "none"
       then some styles.strokeColor else getAttrL attrs0 "stroke") := by
  unfold previewStyleAttrs
  rw [getAttrL_setAttrL_other _ _ _ _ (by decide)]
  by_cases hs : jsToLower tag ∈ strokeableTags ∧ ¬ getAttrL attrs0 "stroke" = some "none"
  · have hs' : jsToLower tag ∈ strokeableTags ∧
        ¬ getAttrL (if jsToLower tag ∈ fillableTags ∧ ¬ getAttrL attrs0 "fill" = some "none"
          then setAttrL attrs0 "fill" styles.fillColor else attrs0) "stroke" = some "none" :=
      ⟨hs.1, by rw [previewStyleAttrs_a1_stroke styles tag attrs0]; exact hs.2⟩
    rw [if_pos hs', if_pos hs, getAttrL_setAttrL_other _ _ _ _ (by decide),
      getAttrL_setAttrL_self]
  · have hs' : ¬ (jsToLower tag ∈ strokeableTags ∧
        ¬ getAttrL (if jsToLower tag ∈ fillableTags ∧ ¬ getAttrL attrs0 "fill" = some "none"
          then setAttrL attrs0 "fill" styles.fillColor else attrs0) "stroke" = some "none") := by
      intro hcon
      exact hs ⟨hcon.1, by
        rw [← previewStyleAttrs_a1_stroke styles tag attrs0]; exact hcon.2⟩
    rw [if_neg hs', if_neg hs, previewStyleAttrs_a1_stroke styles tag attrs0]

theorem previewStyleAttrs_strokeWidth (styles : SVGStyle) (tag : String)
    (attrs0 : List (String × String)) :
    getAttrL (previewStyleAttrs styles tag attrs0) "stroke-width" =
      (if jsToLower tag ∈ strokeableTags ∧ ¬ getAttrL attrs0 "stroke" = some "none"
       then some (jsNumToString styles.strokeWidth)
       else getAttrL attrs0 "stroke-width") := by
  unfold previewStyleAttrs
  rw [getAttrL_setAttrL_other _ _ _ _ (by decide)]
  by_cases hs : jsToLower tag ∈ strokeableTags ∧ ¬ getAttrL attrs0 "stroke" = some "none"
  · have hs' : jsToLower tag ∈ strokeableTags ∧
        ¬ getAttrL (if jsToLower tag ∈ fillableTags ∧ ¬ getAttrL attrs0 "fill" = some "none"
          then setAttrL attrs0 "fill" styles.fillColor else attrs0) "stroke" = some "none" :=
      ⟨hs.1, by rw [previewStyleAttrs_a1_stroke styles tag attrs0]; exact hs.2⟩
    rw [if_pos hs', if_pos hs, getAttrL_setAttrL_self]
  · have hs' : ¬ (jsToLower tag ∈ strokeableTags ∧
        ¬ getAttrL (if jsToLower tag ∈ fillableTags ∧ ¬ getAttrL attrs0 "fill" = some "none"
          then setAttrL attrs0 "fill" styles.fillColor else attrs0) "stroke" = some "none") := by
      intro hcon
      exact hs ⟨hcon.1, by
        rw [← previewStyleAttrs_a1_stroke styles tag attrs0]; exact hcon.2⟩
    rw [if_neg hs', if_neg hs]
    by_cases hf : jsToLower tag ∈ fillableTags ∧ ¬ getAttrL attrs0 "fill" = some "none"
    · rw [if_pos hf, getAttrL_setAttrL_other _ _ _ _ (by decide)]
    · rw [if_neg hf]

/-- C8 counterexample: previewing `"<svg><g/></svg>"` styles the `g` element
— which is outside both styleable tag sets — by setting `opacity="1"` on it,
so elements outside the styleable set are not left unstyled (the source's
`el.setAttribute("opacity", ...)` sits outside the tag-set guards). -/
theorem c8_preview_counterexample :
    previewDocOf "<svg><g/></svg>" DEFAULT_SVG_STYLE =
      some (.mk "svg" [("viewBox", "0 0 24 24"), ("preserveAspectRatio", "xMidYMid meet")]
        [.mk "g" [("opacity", "1")] []]) ∧
    applyStylesToSVGForPreview "<svg><g/></svg>" DEFAULT_SVG_STYLE =
      "<svg viewBox=\"0 0 24 24\" preserveAspectRatio=\"xMidYMid meet\"><g opacity=\"1\"/></svg>" := by
  decide

/-- C8 (amended): the preview styler keeps the document's shape kinds (no
path conversion), defaults the root `viewBox` when absent or empty, strips
the root's explicit `width`/`height`, overwrites `fill` only on the
fill-styleable tags (path, circle, rect, ellipse, polygon, polyline) unless
the element's own fill is `"none"` (preserved), overwrites `stroke` and
`stroke-width` only on the stroke-styleable tags (the same set plus `line`)
unless the element's own stroke is `"none"` (preserved), sets `opacity` on
every descendant element regardless of its tag, and returns the original
text unchanged when no `svg` element is found (parse failure included, which
never throws — the embedding is total). -/
theorem c8_preview_behaviour :
    (∀ (content : String) (styles : SVGStyle), querySvg content = none →
      applyStylesToSVGForPreview content styles = content) ∧
    (∀ (styles : SVGStyle) (tag : String) (attrs0 : List (String × String)),
      getAttrL (previewStyleAttrs styles tag attrs0) "opacity" =
        some (jsNumToString styles.opacity) ∧
      (jsToLower tag ∈ fillableTags → ¬ getAttrL attrs0 "fill" = some "none" →
        getAttrL (previewStyleAttrs styles tag attrs0) "fill" = some styles.fillColor) ∧
      (getAttrL attrs0 "fill" = some "none" →
        getAttrL (previewStyleAttrs styles tag attrs0) "fill" = some "none") ∧
      (¬ jsToLower tag ∈ fillableTags →
        getAttrL (previewStyleAttrs styles tag attrs0) "fill" = getAttrL attrs0 "fill") ∧
      (jsToLower tag ∈ strokeableTags → ¬ getAttrL attrs0 "stroke" = some "none" →
        getAttrL (previewStyleAttrs styles tag attrs0) "stroke" = some styles.strokeColor ∧
        getAttrL (previewStyleAttrs styles tag attrs0) "stroke-width" =
          some (jsNumToString styles.strokeWidth)) ∧
      (getAttrL attrs0 "stroke" = some "none" →
        getAttrL (previewStyleAttrs styles tag attrs0) "stroke" = some "none")) ∧
    (∀ (styles : SVGStyle) (e : XElem), (previewMapTree styles e).tag = e.tag) ∧
    (∀ (styles : SVGStyle) (t : String) (as : List (String × String)) (cs : List XElem),
      (previewRoot styles (.mk t as cs)).tag = t ∧
      getAttrL (previewRoot styles (.mk t as cs)).attrs "width" = none ∧
      getAttrL (previewRoot styles (.mk t as cs)).attrs "height" = none ∧
      getAttrL (previewRoot styles (.mk t as cs)).attrs "preserveAspectRatio" =
        some "xMidYMid meet" ∧
      ((getAttrL as "viewBox" = none ∨ getAttrL as "viewBox" = some "") →
        getAttrL (previewRoot styles (.mk t as cs)).attrs "viewBox" = some "0 0 24 24") ∧
      (∀ v, getAttrL as "viewBox" = some v → ¬ v = "" →
        getAttrL (previewRoot styles (.mk t as cs)).attrs "viewBox" = some v) ∧
      (previewRoot styles (.mk t as cs)).children = previewMapList styles cs) := by
  refine ⟨?_, ?_, ?_, ?_⟩
  · intro content styles h
    simp [applyStylesToSVGForPreview, h]
  · intro styles tag attrs0
    refine ⟨previewStyleAttrs_opacity styles tag attrs0, ?_, ?_, ?_, ?_, ?_⟩
    · intro h1 h2
      rw [previewStyleAttrs_fill, if_pos ⟨h1, h2⟩]
    · intro h
      rw [previewStyleAttrs_fill, if_neg (fun hcon => hcon.2 h), h]
    · intro h
      rw [previewStyleAttrs_fill, if_neg (fun hcon => h hcon.1)]
    · intro h1 h2
      refine ⟨?_, ?_⟩
      · rw [previewStyleAttrs_stroke, if_pos ⟨h1, h2⟩]
      · rw [previewStyleAttrs_strokeWidth, if_pos ⟨h1, h2⟩]
    · intro h
      rw [previewStyleAttrs_stroke, if_neg (fun hcon => hcon.2 h), h]
  · intro styles e
    cases e with
    | mk t a cs => rfl
  · intro styles t as cs
    refine ⟨rfl, ?_, ?_, ?_, ?_, ?_, rfl⟩
    all_goals simp only [previewRoot, XElem.attrs]
    · rw [getAttrL_setAttrL_other _ _ _ _ (by decide),
        getAttrL_removeAttrL_other _ _ _ (by decide), getAttrL_removeAttrL_self]
    · rw [getAttrL_setAttrL_other _ _ _ _ (by decide), getAttrL_removeAttrL_self]
    · rw [getAttrL_setAttrL_self]
    · intro h
      rw [getAttrL_setAttrL_other _ _ _ _ (by decide),
        getAttrL_removeAttrL_other _ _ _ (by decide),
        getAttrL_removeAttrL_other _ _ _ (by decide)]
      rcases h with h | h
      · rw [h]
        simpa using getAttrL_setAttrL_self as "viewBox" "0 0 24 24"
      · rw [h]
        simpa using getAttrL_setAttrL_self as "viewBox" "0 0 24 24"
    · intro v hv hne
      rw [getAttrL_setAttrL_other _ _ _ _ (by decide),
        getAttrL_removeAttrL_other _ _ _ (by decide),
        getAttrL_removeAttrL_other _ _ _ (by decide), hv]
      simp [hne, hv]

/-- Witness for C8: the hypothesised clauses applied at a concrete rect and a
concrete root. -/
theorem c8_preview_behaviour_witness :
    applyStylesToSVGForPreview "junk <<" DEFAULT_SVG_STYLE = "junk <<" ∧
    getAttrL (previewStyleAttrs DEFAULT_SVG_STYLE "rect" [("fill", "none")]) "fill" =
      some "none" ∧
    getAttrL (previewStyleAttrs DEFAULT_SVG_STYLE "rect" [("width", "3")]) "fill" =
      some "#3b82f6" ∧
    getAttrL (previewRoot DEFAULT_SVG_STYLE (.mk "svg" [("width", "10")] [])).attrs
      "viewBox" = some "0 0 24 24" := by
  refine ⟨c8_preview_behaviour.1 "junk <<" DEFAULT_SVG_STYLE (by decide), ?_, ?_, ?_⟩
  · exact (c8_preview_behaviour.2.1 DEFAULT_SVG_STYLE "rect" [("fill", "none")]).2.2.1
      (by decide)
  · exact (c8_preview_behaviour.2.1 DEFAULT_SVG_STYLE "rect" [("width", "3")]).2.1
      (by decide) (by decide)
  · exact (c8_preview_behaviour.2.2.2 DEFAULT_SVG_STYLE "svg" [("width", "10")] []).2.2.2.2.1
      (Or.inl (by decide))

/-- C9: the Restyle Engine returns `true` exactly when a stored insertion
exists (and `false` when there is nothing to restyle, so the caller can
materialize instead); `pathTarget = all` updates every stored path reference,
a specific index updates exactly that position when within bounds (and
nothing otherwise); and every update unconditionally overwrites `opacity`,
`fill`, `stroke` and `stroke-width` on the selected node. -/
theorem c9_restyle_contract :
    (∀ (ref : Option WFRef) (styles : SVGStyle) (t : PathTarget),
      (restyleExistingInWebflow ref styles t).2 = ref.isSome) ∧
    (∀ (styles : SVGStyle) (t : PathTarget),
      restyleExistingInWebflow none styles t = (none, false)) ∧
    (∀ (styles : SVGStyle) (r : WFRef),
      (restyleExistingInWebflow (some r) styles .all).1 =
        some ⟨r.container, r.svgRoot, r.paths.map (updateOne styles)⟩) ∧
    (∀ (styles : SVGStyle) (r : WFRef) (i : ℕ),
      (restyleExistingInWebflow (some r) styles (.idx i)).1 =
        some ⟨r.container, r.svgRoot, updatePathsAt styles i r.paths⟩) ∧
    (∀ (styles : SVGStyle) (i j : ℕ) (l : List HostNode),
      (updatePathsAt styles i l).get? j =
        if j = i then (l.get? j).map (updateOne styles) else l.get? j) ∧
    (∀ (styles : SVGStyle) (n : HostNode), n.customAttributes = true →
      getAttrL (updateOne styles n).attrs "opacity" = some (jsNumToString styles.opacity) ∧
      getAttrL (updateOne styles n).attrs "fill" = some styles.fillColor ∧
      getAttrL (updateOne styles n).attrs "stroke" = some styles.strokeColor ∧
      getAttrL (updateOne styles n).attrs "stroke-width" =
        some (jsNumToString styles.strokeWidth)) := by
  refine ⟨?_, ?_, ?_, ?_, ?_, ?_⟩
  · intro ref styles t
    cases ref with
    | none => rfl
    | some r => cases t <;> rfl
  · intro styles t
    rfl
  · intro styles r
    rfl
  · intro styles r i
    rfl
  · intro styles i j l
    induction l generalizing i j with
    | nil => cases i <;> simp [updatePathsAt]
    | cons p rest ih =>
      cases i with
      | zero =>
        cases j with
        | zero => simp [updatePathsAt]
        | succ j' => simp [updatePathsAt, List.get?]
      | succ i' =>
        cases j with
        | zero => simp [updatePathsAt, List.get?]
        | succ j' =>
          simp only [updatePathsAt, List.get?]
          rw [ih i' j']
          by_cases hji : j' = i'
          · rw [if_pos hji, if_pos (by omega)]
          · rw [if_neg hji, if_neg (by omega)]
  · intro styles n h
    refine ⟨?_, ?_, ?_, ?_⟩
    all_goals simp only [updateOne, if_pos h]
    · rw [getAttrL_setAttrL_other _ _ _ _ (by decide),
        getAttrL_setAttrL_other _ _ _ _ (by decide),
        getAttrL_setAttrL_other _ _ _ _ (by decide), getAttrL_setAttrL_self]
    · rw [getAttrL_setAttrL_other _ _ _ _ (by decide),
        getAttrL_setAttrL_other _ _ _ _ (by decide), getAttrL_setAttrL_self]
    · rw [getAttrL_setAttrL_other _ _ _ _ (by decide), getAttrL_setAttrL_self]
    · rw [getAttrL_setAttrL_self]

/-- Witness for C9: the overwrite clause at a node that previously carried
`fill="none"`, showing the unconditional overwrite. -/
theorem c9_restyle_contract_witness :
    getAttrL (updateOne DEFAULT_SVG_STYLE ⟨true, [("fill", "none")]⟩).attrs "opacity" =
      some "1" ∧
    getAttrL (updateOne DEFAULT_SVG_STYLE ⟨true, [("fill", "none")]⟩).attrs "fill" =
      some "#3b82f6" ∧
    getAttrL (updateOne DEFAULT_SVG_STYLE ⟨true, [("fill", "none")]⟩).attrs "stroke" =
      some "#1e40af" ∧
    getAttrL (updateOne DEFAULT_SVG_STYLE ⟨true, [("fill", "none")]⟩).attrs "stroke-width" =
      some "2" :=
  c9_restyle_contract.2.2.2.2.2 DEFAULT_SVG_STYLE ⟨true, [("fill", "none")]⟩ rfl
